import Mathlib

/-
  Verification of the goodblaster/errors Go package.

  The repository ships two revisions of the core file.  The revision that
  actually compiles together with src/formatted.go (which reads the
  unexported field `err` and mentions the type `FormattedError`) and that
  passes the shipped test files (errors_test.go, formatted_test.go) is the
  one in src/unnamed/part_001.  The variant in src/errors.go is a stale
  snapshot: it refers to an undefined type `*Formatted`, uses an exported
  field `Err` that src/formatted.go does not, and its `Unwrap` would fail
  TestUnwrap.  The definitions below therefore embed
  src/unnamed/part_001 together with src/formatted.go; divergences of the
  stale revision are discussed where relevant.

  Go `error` interface values are modelled by `OptErr` (`.none` is the nil
  interface).  The dynamic error types that occur in this package are
  modelled by `GoError`:
    * `.base`       an errors.New / fmt.Errorf value (plain message);
    * `.joinE`      the stdlib joinError holding the joined non-nil errors;
    * `.container`  a `*errors.Error` with its `err` field;
    * `.formatted`  a `*FormattedError` with the `err` field of its parent
                    container and its rendered message.
  Panics (nil dereference in `Error()`) are modelled by `Option.none`
  results of `errMsg`.
-/

/-- Values handed to the formatting engine (the argument types exercised by
the repository: strings and ints). -/
inductive GoVal where
  | str (s : String)
  | int (n : Int)

/-- Rendering of an argument value, as the %v verb of fmt renders strings
and ints. -/
def GoVal.render : GoVal → String
  | .str s => s
  | .int n => toString n

/-- Go type name of an argument value, used in the diagnostic markers of
fmt. -/
def GoVal.typeName : GoVal → String
  | .str _ => "string"
  | .int _ => "int"

/-- One verb application of the formatting engine: %s on a string, %v on
anything, %d on an int; any other combination yields the bad-verb marker
of fmt such as "%!z(int=42)", exactly as documented in src/formatted.go. -/
def applyVerb : Char → GoVal → String
  | 's', .str s => s
  | 'v', a => a.render
  | 'd', .int n => toString n
  | v, a => "%!" ++ v.toString ++ "(" ++ a.typeName ++ "=" ++ a.render ++ ")"

/-- Rendering of leftover arguments inside the "%!(EXTRA ...)" marker of
fmt: comma separated type=value pairs. -/
def renderExtra : List GoVal → String
  | [] => ""
  | [a] => a.typeName ++ "=" ++ a.render
  | a :: rest => a.typeName ++ "=" ++ a.render ++ ", " ++ renderExtra rest

/-- Suffix appended by the formatting engine when arguments remain after the
template is exhausted: the "%!(EXTRA type=value, ...)" marker. -/
def extrasSuffix : List GoVal → String
  | [] => ""
  | a :: rest => "%!(EXTRA " ++ renderExtra (a :: rest) ++ ")"

/-- Core of the formatting engine (fmt.Sprintf), modelled from the contract
documented in src/formatted.go: literal characters are copied; "%%" emits a
percent sign; a verb with no remaining argument emits "%!v(MISSING)"; a
percent not followed by a verb letter emits "%!(NOVERB)" and the following
character is copied; leftover arguments emit a trailing "%!(EXTRA ...)"
marker; the engine never fails. -/
def sprintfCore : List Char → List GoVal → String
  | [], args => extrasSuffix args
  | c :: rest, args =>
    if c = '%' then
      match rest with
      | [] => "%!(NOVERB)" ++ extrasSuffix args
      | c2 :: rest2 =>
        if c2 = '%' then "%" ++ sprintfCore rest2 args
        else if c2.isAlpha then
          match args with
          | [] => "%!" ++ c2.toString ++ "(MISSING)" ++ sprintfCore rest2 []
          | a :: rest3 => applyVerb c2 a ++ sprintfCore rest2 rest3
        else "%!(NOVERB)" ++ c2.toString ++ sprintfCore rest2 args
    else c.toString ++ sprintfCore rest args

/-- The formatting engine on a template string. -/
def goSprintf (s : String) (args : List GoVal) : String :=
  sprintfCore s.data args

/-- A template contains a format verb or a bare unescaped percent sign:
some '%' is followed by anything other than another '%' (or ends the
string).  Templates whose only percents are "%%" escapes are excluded. -/
def hasBadPercent : List Char → Bool
  | [] => false
  | c :: rest =>
    if c = '%' then
      match rest with
      | [] => true
      | c2 :: rest2 => if c2 = '%' then hasBadPercent rest2 else true
    else hasBadPercent rest

mutual
/-- Dynamic error values of the package (see header comment). -/
inductive GoError where
  | base (msg : String)
  | joinE (errs : GoErrList)
  | container (err : OptErr)
  | formatted (parent : OptErr) (msg : String)
/-- A Go `error` interface value: nil or a dynamic error value. -/
inductive OptErr where
  | none
  | some (e : GoError)
/-- The slice of errors held by a stdlib joinError. -/
inductive GoErrList where
  | nil
  | cons (e : GoError) (rest : GoErrList)
end

mutual
/-- Structural equality test on dynamic error values, modelling the Go
interface comparison `err == target` used by stdlib errors.Is. -/
def beqErr : GoError → GoError → Bool
  | .base s, .base t => s == t
  | .joinE es, .joinE fs => beqErrList es fs
  | .container a, .container b => beqOptErr a b
  | .formatted p m, .formatted q n => beqOptErr p q && m == n
  | _, _ => false
def beqOptErr : OptErr → OptErr → Bool
  | .none, .none => true
  | .some a, .some b => beqErr a b
  | _, _ => false
def beqErrList : GoErrList → GoErrList → Bool
  | .nil, .nil => true
  | .cons a as, .cons b bs => beqErr a b && beqErrList as bs
  | _, _ => false
end

/-- Lines joined with a newline between consecutive entries, as the Error
method of the stdlib joinError concatenates the messages of its members. -/
def joinLines : List String → String
  | [] => ""
  | [s] => s
  | s :: rest => s ++ "\n" ++ joinLines rest

mutual
/-- The Error() string of a dynamic error value.  `Option.none` models a
panic: a `*errors.Error` whose `err` field is nil dereferences nil when its
Error method runs (src/unnamed/part_001, method Error).  The message of a
joinError is the messages of its members joined by newlines. -/
def errMsg : GoError → Option String
  | .base s => Option.some s
  | .joinE es => (errMsgList es).map joinLines
  | .container .none => Option.none
  | .container (.some e) => errMsg e
  | .formatted _ m => Option.some m
/-- Error() strings of all members of a join, propagating panics. -/
def errMsgList : GoErrList → Option (List String)
  | .nil => Option.some []
  | .cons e rest =>
    match errMsg e, errMsgList rest with
    | Option.some s, Option.some l => Option.some (s :: l)
    | _, _ => Option.none
end

/-- The non-nil entries of an argument list, in order, as stdlib
errors.Join collects them. -/
def collectNonNil : List OptErr → GoErrList
  | [] => .nil
  | .none :: rest => collectNonNil rest
  | .some e :: rest => .cons e (collectNonNil rest)

/-- Stdlib errors.Join: nil when every argument is nil, otherwise a
joinError holding the non-nil arguments in order. -/
def goJoin (errs : List OptErr) : OptErr :=
  match collectNonNil errs with
  | .nil => .none
  | es => .some (.joinE es)

mutual
/-- Stdlib errors.Is chain walk on a non-nil err, for the method set of
this package: it stops on equality, descends into every member of a
joinError (Unwrap() []error), follows a `*errors.Error` to its `err` field
((*Error).Unwrap, src/unnamed/part_001), and follows a `*FormattedError`
to its parent container ((*FormattedError).Unwrap, src/formatted.go),
checking equality with the parent container before descending further. -/
def goIsRec (e t : GoError) : Bool :=
  beqErr e t ||
    match e with
    | .base _ => false
    | .joinE es => goIsAny es t
    | .container .none => false
    | .container (.some u) => goIsRec u t
    | .formatted p _ =>
      beqErr (.container p) t ||
        match p with
        | .none => false
        | .some u => goIsRec u t
/-- Stdlib errors.Is walk over the members of a joinError. -/
def goIsAny : GoErrList → GoError → Bool
  | .nil, _ => false
  | .cons e rest, t => goIsRec e t || goIsAny rest t
end

/-- Stdlib errors.Is on interface values: when either side is nil the
result is the equality of the two interface values; otherwise the chain of
err is walked. -/
def goIs : OptErr → OptErr → Bool
  | .none, .none => true
  | .none, .some _ => false
  | .some _, .none => false
  | .some e, .some t => goIsRec e t

/-- Stdlib errors.Unwrap for the method set of this package: a
`*errors.Error` unwraps to its `err` field, a `*FormattedError` unwraps to
its parent container; joinError and plain errors have no single-level
Unwrap, so the result is nil. -/
def goUnwrap : OptErr → OptErr
  | .some (.container p) => p
  | .some (.formatted p _) => .some (.container p)
  | _ => .none

/-- Result of fmt.Errorf: a plain error whose message is the formatted
template (no %w verbs occur in this package). -/
def fmtErrorf (msg : String) (args : List GoVal) : GoError :=
  .base (goSprintf msg args)

namespace Errors

/-- New from src/unnamed/part_001: a container around errors.New(msg). -/
def New (msg : String) : GoError :=
  .container (.some (.base msg))

/-- Newf from src/unnamed/part_001: a container around fmt.Errorf. -/
def Newf (msg : String) (args : List GoVal) : GoError :=
  .container (.some (fmtErrorf msg args))

/-- Wrap from src/unnamed/part_001 lines 40-50: on a nil error, a container
around fmt.Errorf(msg); otherwise a container around
errors.Join(fmt.Errorf(msg), err).  Note that, unlike the stale variant in
src/errors.go, this revision does not unwrap a `*errors.Error` argument
first: the container itself is preserved in the chain (see README, "Type
preservation"). -/
def Wrap (err : OptErr) (msg : String) : GoError :=
  match err with
  | .none => .container (.some (fmtErrorf msg []))
  | .some e => .container (goJoin [.some (fmtErrorf msg []), .some e])

/-- Wrapf from src/unnamed/part_001: as Wrap with a formatted message. -/
def Wrapf (err : OptErr) (msg : String) (args : List GoVal) : GoError :=
  match err with
  | .none => .container (.some (fmtErrorf msg args))
  | .some e => .container (goJoin [.some (fmtErrorf msg args), .some e])

/-- Unwrap from src/unnamed/part_001 lines 70-72: a direct delegation to
stdlib errors.Unwrap (which reaches (*Error).Unwrap on containers). -/
def Unwrap (err : OptErr) : OptErr :=
  goUnwrap err

/-- Join from src/unnamed/part_001 lines 74-78: always a container around
stdlib errors.Join of the arguments. -/
def Join (errs : List OptErr) : GoError :=
  .container (goJoin errs)

/-- Unformatted from src/unnamed/part_001: the parent container when the
argument is a `*FormattedError`, nil otherwise. -/
def Unformatted (err : OptErr) : OptErr :=
  match err with
  | .some (.formatted p _) => .some (.container p)
  | _ => .none

/-- Is from src/unnamed/part_001 lines 83-90: replace a formatted error by
its parent container, then delegate to stdlib errors.Is. -/
def Is (err target : OptErr) : Bool :=
  match Unformatted err with
  | .some e => goIs (.some e) target
  | .none => goIs err target

/-- Format from src/formatted.go lines 38-43: a `*FormattedError` whose
message is Sprintf applied to the Error() string of the parent container.
The result is `Option.none` exactly when reading the message of the parent
panics (nil `err` field). -/
def Format (p : OptErr) (args : List GoVal) : Option GoError :=
  (errMsg (.container p)).map (fun s => .formatted p (goSprintf s args))

end Errors

/-- JSON escaping of one character, as encoding/json escapes string values
(quotes, backslashes, control characters, and the HTML characters). -/
def jsonEscapeChar (c : Char) : String :=
  if c = '"' then "\\\""
  else if c = '\\' then "\\\\"
  else if c = '\n' then "\\n"
  else if c = '\r' then "\\r"
  else if c = '\t' then "\\t"
  else if c = '<' then "\\u003c"
  else if c = '>' then "\\u003e"
  else if c = '&' then "\\u0026"
  else String.singleton c

/-- JSON encoding of one string value. -/
def jsonStr (s : String) : String :=
  "\"" ++ String.join (s.data.map jsonEscapeChar) ++ "\""

/-- Remaining entries of a JSON array, each preceded by a comma. -/
def jsonArrayRest : List String → String
  | [] => ""
  | s :: rest => "," ++ jsonStr s ++ jsonArrayRest rest

/-- JSON encoding of an array of strings, as json.Marshal renders a
[]string. -/
def jsonArray : List String → String
  | [] => "[]"
  | s :: rest => "[" ++ jsonStr s ++ jsonArrayRest rest ++ "]"

/-- Splitting of a message on newline characters, as strings.Split(s, "\n")
produces: the empty string splits to one empty entry, and every newline
ends an entry. -/
def splitNL : List Char → List String
  | [] => [""]
  | '\n' :: rest => "" :: splitNL rest
  | c :: rest =>
    match splitNL rest with
    | [] => [c.toString]
    | s :: ss => (c.toString ++ s) :: ss

namespace Errors

/-- MarshalJSON from src/unnamed/part_001 lines 116-119: the Error() string
of the container split on newlines, marshalled as a JSON string array.  The
result is `Option.none` exactly when Error() panics. -/
def MarshalJSON (p : OptErr) : Option String :=
  (errMsg (.container p)).map (fun s => jsonArray (splitNL s.data))

end Errors

/-- A dynamic error value is a `*errors.Error` container. -/
def isContainer : GoError → Bool
  | .container _ => true
  | _ => false

/-- Observation used to separate the two shapes a wrapped container could
take: true exactly when the value is a container around a two-element join
whose second member is itself a container. -/
def probeC1 : GoError → Bool
  | .container (.some (.joinE (.cons _ (.cons (.container _) .nil)))) => true
  | _ => false

/-- Kinds of concrete Go types implementing error, as exercised by the
repository tests (src/unnamed/part_003): pointer types (which may hold a
nil pointer), value struct types, and primitive alias types such as a
string alias. -/
inductive ConcreteKind where
  | ptrKind (isNilPtr : Bool)
  | valueKind
  | primAliasKind
deriving DecidableEq

/-- A Go error interface value at representation level: the nil interface,
or a boxed concrete value. -/
inductive ErrValue where
  | nilIface
  | boxed (k : ConcreteKind)
deriving DecidableEq

/-- The two machine words of an interface value as read by the `iface`
struct in the source: whether the type descriptor word and the data word
are null.  Boxing a nil pointer stores a null data word; boxing a value or
primitive-alias error stores a pointer to a copy, which is never null. -/
structure IfaceWords where
  tabNull : Bool
  dataNull : Bool

/-- The data word of a boxed concrete value is null exactly for a nil
pointer of a pointer kind. -/
def dataWordIsNull : ConcreteKind → Bool
  | .ptrKind b => b
  | .valueKind => false
  | .primAliasKind => false

/-- Interface representation of an error value: nil interface has both
words null; a boxed value has a non-null type word and the data word of its
concrete kind. -/
def wordsOf : ErrValue → IfaceWords
  | .nilIface => ⟨true, true⟩
  | .boxed k => ⟨false, dataWordIsNull k⟩

namespace Errors

/-- IsNil from src/unnamed/part_001 lines 157-164: true for the literal nil
interface; otherwise the function reinterprets the interface value as two
machine words and tests whether the data word is null.  Total for every
concrete kind. -/
def IsNil (v : ErrValue) : Bool :=
  if v = .nilIface then true else (wordsOf v).dataNull

end Errors

mutual
theorem beqErr_refl : ∀ e : GoError, beqErr e e = true
  | .base s => by simp [beqErr]
  | .joinE es => by simp [beqErr]; exact beqErrList_refl es
  | .container a => by simp [beqErr]; exact beqOptErr_refl a
  | .formatted p m => by simp [beqErr]; exact beqOptErr_refl p
theorem beqOptErr_refl : ∀ a : OptErr, beqOptErr a a = true
  | .none => by simp [beqOptErr]
  | .some e => by simp [beqOptErr]; exact beqErr_refl e
theorem beqErrList_refl : ∀ l : GoErrList, beqErrList l l = true
  | .nil => by simp [beqErrList]
  | .cons e rest => by simp [beqErrList]; exact ⟨beqErr_refl e, beqErrList_refl rest⟩
end

theorem goIsRec_refl (e : GoError) : goIsRec e e = true := by
  rw [goIsRec.eq_def, beqErr_refl, Bool.true_or]

theorem goIsRec_container_some (u t : GoError) (h : goIsRec u t = true) :
    goIsRec (.container (.some u)) t = true := by
  rw [goIsRec.eq_def]
  simp [h]

theorem goIsRec_joinE (es : GoErrList) (t : GoError) (h : goIsAny es t = true) :
    goIsRec (.joinE es) t = true := by
  rw [goIsRec.eq_def]
  simp [h]

theorem goIsAny_here (e : GoError) (rest : GoErrList) (t : GoError)
    (h : goIsRec e t = true) : goIsAny (.cons e rest) t = true := by
  rw [goIsAny.eq_def]
  simp [h]

theorem goIsAny_there (e : GoError) (rest : GoErrList) (t : GoError)
    (h : goIsAny rest t = true) : goIsAny (.cons e rest) t = true := by
  rw [goIsAny.eq_def]
  simp [h]

theorem collectNonNil_all_none : ∀ l : List OptErr, (∀ x ∈ l, x = OptErr.none) →
    collectNonNil l = .nil := by
  intro l h
  induction l with
  | nil => rfl
  | cons x rest ih =>
    have hx : x = OptErr.none := h x (List.mem_cons_self x rest)
    subst hx
    rw [collectNonNil]
    exact ih (fun y hy => h y (List.mem_cons_of_mem _ hy))

theorem sprintf_marker : ∀ (n : Nat) (cs : List Char), cs.length ≤ n →
    hasBadPercent cs = true →
    ∃ pre post, sprintfCore cs [] = pre ++ "%!" ++ post := by
  intro n
  induction n with
  | zero =>
    intro cs hl hb
    have hcs : cs = [] := List.length_eq_zero.mp (Nat.le_zero.mp hl)
    subst hcs
    simp [hasBadPercent] at hb
  | succ n ih =>
    intro cs hl hb
    match cs with
    | [] => simp [hasBadPercent] at hb
    | c :: rest =>
      by_cases hc : c = '%'
      · subst hc
        match rest with
        | [] =>
          exact ⟨"", "(NOVERB)", rfl⟩
        | c2 :: rest2 =>
          by_cases hc2 : c2 = '%'
          · subst hc2
            rw [hasBadPercent] at hb
            simp at hb
            have hlen : rest2.length ≤ n := by
              simp [List.length_cons] at hl
              omega
            obtain ⟨pre, post, heq⟩ := ih rest2 hlen hb
            refine ⟨"%" ++ pre, post, ?_⟩
            rw [sprintfCore]
            simp [heq, String.append_assoc]
          · by_cases ha : c2.isAlpha
            · refine ⟨"", c2.toString ++ "(MISSING)" ++ sprintfCore rest2 [], ?_⟩
              rw [sprintfCore]
              simp [hc2, ha, String.append_assoc]
            · refine ⟨"", "(NOVERB)" ++ c2.toString ++ sprintfCore rest2 [], ?_⟩
              rw [sprintfCore]
              simp [hc2, ha, String.append_assoc]
              rfl
      · rw [hasBadPercent.eq_def] at hb
        simp [hc] at hb
        have hlen : rest.length ≤ n := by
          simp [List.length_cons] at hl
          omega
        obtain ⟨pre, post, heq⟩ := ih rest hlen hb
        refine ⟨c.toString ++ pre, post, ?_⟩
        rw [sprintfCore.eq_def]
        simp [hc, heq, String.append_assoc]

/-- C1, counterexample: wrapping the container New("base") with message
"ctx" does not extract the underlying error of the container.  The result
joins the message error with the container itself, not with its underlying
base error, so the result claimed by C1 differs from the computed one. -/
theorem c1_counterexample :
    Errors.Wrap (.some (Errors.New "base")) "ctx"
      = .container (.some (.joinE (.cons (.base "ctx")
          (.cons (.container (.some (.base "base"))) .nil)))) ∧
    Errors.Wrap (.some (Errors.New "base")) "ctx"
      ≠ .container (.some (.joinE (.cons (.base "ctx") (.cons (.base "base") .nil)))) := by
  refine ⟨rfl, fun h => ?_⟩
  exact Bool.noConfusion (congrArg probeC1 h)

/-- C1, amended: for every non-absent container c and message m, Wrap(c, m)
produces a container holding the join of the message error and c itself,
preserving the container in the chain (README, "Type preservation");
the immediate underlying error of the result is never directly another
container (it is a join node, or a plain message error for absent input). -/
theorem c1_wrap_preserves :
    (∀ (e : GoError) (m : String), Errors.Wrap (.some e) m
        = .container (.some (.joinE (.cons (fmtErrorf m []) (.cons e .nil))))) ∧
    (∀ (oe : OptErr) (m : String), ∃ u,
        Errors.Wrap oe m = .container (.some u) ∧ isContainer u = false) := by
  refine ⟨fun e m => rfl, fun oe m => ?_⟩
  cases oe with
  | none => exact ⟨_, rfl, rfl⟩
  | some e => exact ⟨_, rfl, rfl⟩

/-- C2: whenever Format on a container succeeds (its parent message is
readable), the package Is matches the formatted derivative against its
origin container, for every container and every argument list. -/
theorem c2_format_matches_origin (p : OptErr) (args : List GoVal) (f : GoError)
    (h : Errors.Format p args = Option.some f) :
    Errors.Is (.some f) (.some (.container p)) = true := by
  unfold Errors.Format at h
  cases hm : errMsg (.container p) with
  | none => rw [hm] at h; simp at h
  | some s =>
    rw [hm] at h
    simp at h
    subst h
    show goIsRec (.container p) (.container p) = true
    exact goIsRec_refl _

/-- C2, witness: the template "test %v" formatted with 2 matches its origin
container under Is. -/
theorem c2_format_matches_origin_witness :
    Errors.Format (.some (.base "test %v")) [GoVal.int 2]
        = Option.some (.formatted (.some (.base "test %v")) "test 2") ∧
    Errors.Is (.some (.formatted (.some (.base "test %v")) "test 2"))
        (.some (.container (.some (.base "test %v")))) = true :=
  ⟨rfl, c2_format_matches_origin (.some (.base "test %v")) [GoVal.int 2] _ rfl⟩

/-- C3: Unwrap returns the underlying error of a container, the parent
container of a formatted derivative, and absent for plain and joined errors
and for absent input; it is exactly the standard single-level unwrap for
the method set of this package. -/
theorem c3_unwrap :
    (∀ p : OptErr, Errors.Unwrap (.some (.container p)) = p) ∧
    (∀ (p : OptErr) (m : String),
        Errors.Unwrap (.some (.formatted p m)) = .some (.container p)) ∧
    (∀ s : String, Errors.Unwrap (.some (.base s)) = .none) ∧
    (∀ es : GoErrList, Errors.Unwrap (.some (.joinE es)) = .none) ∧
    Errors.Unwrap .none = .none ∧
    (∀ e : OptErr, Errors.Unwrap e = goUnwrap e) :=
  ⟨fun _ => rfl, fun _ _ => rfl, fun _ => rfl, fun _ => rfl, rfl, fun _ => rfl⟩

/-- C4: wrapping an absent error never fails and never returns absent: for
every message the result is a container around a plain error carrying the
formatted message, its Error() is total, and on the concrete message "ctx"
the Error() string is exactly "ctx" with no separator. -/
theorem c4_wrap_nil :
    (∀ m : String, Errors.Wrap .none m = .container (.some (.base (goSprintf m []))) ∧
        errMsg (Errors.Wrap .none m) = Option.some (goSprintf m [])) ∧
    errMsg (Errors.Wrap .none "ctx") = Option.some "ctx" :=
  ⟨fun _ => ⟨rfl, rfl⟩, rfl⟩

/-- C5: MarshalJSON is the JSON string array of the message split on
newlines, in order; the message "line1\nline2" marshals to
["line1","line2"], and wrapping "base error" with "context" yields a join
whose container marshals to ["context","base error"], new context first. -/
theorem c5_marshal :
    (∀ (p : OptErr) (s : String), errMsg (.container p) = Option.some s →
        Errors.MarshalJSON p = Option.some (jsonArray (splitNL s.data))) ∧
    Errors.MarshalJSON (.some (.base "line1\nline2"))
      = Option.some "[\"line1\",\"line2\"]" ∧
    Errors.Wrap (.some (.base "base error")) "context"
      = .container (.some (.joinE (.cons (.base "context")
          (.cons (.base "base error") .nil)))) ∧
    Errors.MarshalJSON (.some (.joinE (.cons (.base "context")
        (.cons (.base "base error") .nil))))
      = Option.some "[\"context\",\"base error\"]" := by
  refine ⟨?_, rfl, rfl, rfl⟩
  intro p s h
  unfold Errors.MarshalJSON
  rw [h]
  rfl

/-- C5, witness: the splitting rule applied to the concrete message
"line1\nline2". -/
theorem c5_marshal_witness :
    errMsg (GoError.container (.some (.base "line1\nline2")))
      = Option.some "line1\nline2" ∧
    Errors.MarshalJSON (.some (.base "line1\nline2"))
      = Option.some (jsonArray (splitNL ("line1\nline2").data)) :=
  ⟨rfl, c5_marshal.1 (.some (.base "line1\nline2")) "line1\nline2" rfl⟩

/-- C6: IsNil is true for the literal nil interface and, for every boxed
concrete value, it equals the null test of the data word of the interface
representation, hence true exactly for a boxed nil pointer; it is a total
function over pointer, value, and primitive-alias kinds. -/
theorem c6_isnil :
    Errors.IsNil .nilIface = true ∧
    (∀ k, Errors.IsNil (.boxed k) = dataWordIsNull k) ∧
    Errors.IsNil (.boxed (.ptrKind true)) = true ∧
    Errors.IsNil (.boxed (.ptrKind false)) = false ∧
    Errors.IsNil (.boxed .valueKind) = false ∧
    Errors.IsNil (.boxed .primAliasKind) = false :=
  ⟨rfl, fun _ => rfl, rfl, rfl, rfl, rfl⟩

/-- C7: for every non-absent error e1, the package Is matches e1 through
one wrap and through two nested wraps. -/
theorem c7_is_through_wrap (e1 : GoError) :
    Errors.Is (.some (Errors.Wrap (.some e1) "ctx")) (.some e1) = true ∧
    Errors.Is (.some (Errors.Wrap (.some (Errors.Wrap (.some e1) "a")) "b"))
      (.some e1) = true := by
  constructor
  · exact goIsRec_container_some _ _ (goIsRec_joinE _ _ (goIsAny_there _ _ _
      (goIsAny_here _ _ _ (goIsRec_refl e1))))
  · exact goIsRec_container_some _ _ (goIsRec_joinE _ _ (goIsAny_there _ _ _
      (goIsAny_here _ _ _ (goIsRec_container_some _ _ (goIsRec_joinE _ _
        (goIsAny_there _ _ _ (goIsAny_here _ _ _ (goIsRec_refl e1))))))))

/-- C8: Format never fails on a malformed template: for every template and
argument list it returns a formatted derivative; with fewer arguments than
verbs the output embeds the missing-argument marker, with more arguments
the extra-argument marker, and with a bare unescaped percent and no
arguments the no-verb marker, matching the examples documented in
src/formatted.go. -/
theorem c8_format_markers :
    (∀ (t : String) (args : List GoVal),
        Errors.Format (.some (.base t)) args
          = Option.some (.formatted (.some (.base t)) (goSprintf t args))) ∧
    Errors.Format (.some (.base "error: %s %d")) [GoVal.str "test"]
      = Option.some (.formatted (.some (.base "error: %s %d"))
          "error: test %!d(MISSING)") ∧
    Errors.Format (.some (.base "error: %s")) [GoVal.str "test", GoVal.str "extra"]
      = Option.some (.formatted (.some (.base "error: %s"))
          "error: test%!(EXTRA string=extra)") ∧
    Errors.Format (.some (.base "100% complete")) []
      = Option.some (.formatted (.some (.base "100% complete"))
          "100%!(NOVERB) complete") :=
  ⟨fun _ _ => rfl, rfl, rfl, rfl⟩

/-- C9: when every input to Join is absent (including the empty call), Join
still returns a non-absent container whose underlying error is absent, so
Error() on the result panics (modelled by the absent message), while the
standard join primitive returns absent on the same inputs. -/
theorem c9_join_all_nil (l : List OptErr) (h : ∀ x ∈ l, x = OptErr.none) :
    Errors.Join l = .container .none ∧
    errMsg (Errors.Join l) = Option.none ∧
    goJoin l = OptErr.none := by
  have hj : goJoin l = OptErr.none := by
    unfold goJoin
    rw [collectNonNil_all_none l h]
  refine ⟨?_, ?_, hj⟩
  · unfold Errors.Join
    rw [hj]
  · unfold Errors.Join
    rw [hj]
    rfl

/-- C9, witness: the zero-argument Join. -/
theorem c9_join_all_nil_witness :
    (∀ x ∈ ([] : List OptErr), x = OptErr.none) ∧
    (Errors.Join [] = .container .none ∧
      errMsg (Errors.Join []) = Option.none ∧
      goJoin [] = OptErr.none) :=
  ⟨by simp, c9_join_all_nil [] (by simp)⟩

/-- C10: Wrap runs its message through the formatting engine with no
arguments, so for every message containing a format verb or a bare
unescaped percent the Error() string of Wrap(nil, msg) embeds an in-band
diagnostic marker; on the concrete messages "100% complete" and "%s" the
output is not the message verbatim. -/
theorem c10_wrap_printf :
    (∀ cs : List Char, hasBadPercent cs = true →
        ∃ pre post, errMsg (Errors.Wrap .none (String.mk cs))
          = Option.some (pre ++ "%!" ++ post)) ∧
    errMsg (Errors.Wrap .none "100% complete")
      = Option.some "100%!(NOVERB) complete" ∧
    ("100%!(NOVERB) complete" : String) ≠ "100% complete" ∧
    errMsg (Errors.Wrap .none "%s") = Option.some "%!s(MISSING)" ∧
    ("%!s(MISSING)" : String) ≠ "%s" := by
  refine ⟨?_, rfl, by decide, rfl, by decide⟩
  intro cs hb
  obtain ⟨pre, post, heq⟩ := sprintf_marker cs.length cs (Nat.le_refl _) hb
  refine ⟨pre, post, ?_⟩
  show Option.some (sprintfCore cs []) = _
  rw [heq]

/-- C10, witness: the template "%s" wrapped with no prior error embeds a
marker. -/
theorem c10_wrap_printf_witness :
    hasBadPercent ['%', 's'] = true ∧
    (∃ pre post, errMsg (Errors.Wrap .none (String.mk ['%', 's']))
        = Option.some (pre ++ "%!" ++ post)) :=
  ⟨rfl, c10_wrap_printf.1 ['%', 's'] rfl⟩
